import Mathlib

/-!
Verification of the legend/coloring engine and view-state synchronizer of the
site-selector map component (`src/components/site_selector_v2.py`, embedded
JavaScript).  JavaScript numbers are modelled by an arbitrary linear ordered
field `α` (instantiated with `ℚ` for exact evaluation and with `ℝ` when the
logarithmic transform is involved); `Number(string)` coercion and
`String(number)` rendering are kept abstract as parameters `numParse` and
`numToStr`, and `Math.log` as the parameter `jlog`.
-/

namespace SiteSelector

/-- JavaScript property values occurring in the feature/row data: `null`,
a (finite) number, or a string.  An absent property (`undefined`) is
modelled by `Option.none` at use sites. -/
inductive JVal (α : Type) where
  | jnull : JVal α
  | jnum (x : α) : JVal α
  | jstr (s : String) : JVal α
deriving DecidableEq, Repr

/-- Kind of a colorable field, `variable.type` in the source. -/
inductive VarKind where
  | numeric
  | categorical
deriving DecidableEq, Repr

/-- A colorable field descriptor (`variable` in the source): id, kind and the
nominal metadata bounds `variable.min` / `variable.max` (absent = `none`). -/
structure Variable (α : Type) where
  id : String
  type : VarKind
  min : Option (JVal α)
  max : Option (JVal α)
deriving DecidableEq, Repr

/-- A point feature; only the property map is relevant to the legend engine.
Property access `feature?.properties?.[id]` is association-list lookup,
`none` meaning the property is absent (`undefined`). -/
structure Feature (α : Type) where
  props : List (String × JVal α)
deriving DecidableEq, Repr

/-- Property access `feature?.properties?.[id]`. -/
def getProp {α : Type} (f : Feature α) (id : String) : Option (JVal α) :=
  f.props.lookup id

/-- One entry of a categorical legend: a registered value and its color. -/
structure CatEntry where
  value : String
  color : String
deriving DecidableEq, Repr

/-- A categorical palette (`COLOR_MAPS.categorical` element). -/
structure CatMap where
  id : String
  colors : List String
deriving DecidableEq, Repr

/-- A continuous palette (`COLOR_MAPS.continuous` element); `start`/`endc`
are the RGB triples `start`/`end` of the source. -/
structure ContMap where
  id : String
  start : ℤ × ℤ × ℤ
  endc : ℤ × ℤ × ℤ
deriving DecidableEq, Repr

/-- The `CATEGORY_COLORS` constant. -/
def CATEGORY_COLORS : List String :=
  ["#5b63f4", "#22d3ee", "#34d399", "#facc15", "#f97316",
   "#f472b6", "#14b8a6", "#ef4444", "#a855f7", "#0ea5e9"]

/-- The `COLOR_MAPS.continuous` palette list. -/
def continuousMaps : List ContMap :=
  [⟨"blue-red", (91, 99, 244), (239, 68, 68)⟩,
   ⟨"viridis", (68, 1, 84), (253, 231, 37)⟩,
   ⟨"plasma", (13, 8, 135), (240, 249, 33)⟩,
   ⟨"green-blue", (34, 211, 153), (14, 165, 233)⟩,
   ⟨"purple-orange", (168, 85, 247), (249, 115, 22)⟩]

/-- The `COLOR_MAPS.categorical` palette list. -/
def categoricalMaps : List CatMap :=
  [⟨"default", CATEGORY_COLORS⟩,
   ⟨"pastel", ["#a8e6cf", "#ffd3b6", "#ffaaa5", "#ff8b94", "#c7ceea", "#b4a7d6", "#dda0dd", "#98d8c8"]⟩,
   ⟨"bright", ["#ff6b6b", "#4ecdc4", "#45b7d1", "#f9ca24", "#f0932b", "#eb4d4b", "#6c5ce7", "#a29bfe"]⟩,
   ⟨"earth", ["#8b4513", "#cd853f", "#daa520", "#b8860b", "#9acd32", "#6b8e23", "#556b2f", "#2f4f2f"]⟩]

/-- Palette resolution `COLOR_MAPS.categorical.find(m => m.id === colorMapId)
|| COLOR_MAPS.categorical[0]`. -/
def resolveCatMap (colorMapId : String) : CatMap :=
  (categoricalMaps.find? (fun m => m.id = colorMapId)).getD ⟨"default", CATEGORY_COLORS⟩

/-- Palette resolution `COLOR_MAPS.continuous.find(m => m.id === colorMapId)
|| COLOR_MAPS.continuous[0]`. -/
def resolveContMap (colorMapId : String) : ContMap :=
  (continuousMaps.find? (fun m => m.id = colorMapId)).getD
    ⟨"blue-red", (91, 99, 244), (239, 68, 68)⟩

variable {α : Type} [LinearOrderedField α]

/-- The `toNumber` helper: `null`/`undefined`/empty string give `null`,
numbers pass through (α models the finite doubles), and strings go through
the abstract `Number(·)` coercion `numParse` (`none` = `NaN`/infinite). -/
def toNumber (numParse : String → Option α) : Option (JVal α) → Option α
  | none => none
  | some .jnull => none
  | some (.jnum x) => some x
  | some (.jstr s) => if s = "" then none else numParse s

/-- The shared stringification step of the legend engine and color resolver:
`value === null || value === undefined || value === "" ? "Unknown" :
String(value)`. -/
def jsKey (numToStr : α → String) : Option (JVal α) → String
  | none => "Unknown"
  | some .jnull => "Unknown"
  | some (.jstr s) => if s = "" then "Unknown" else s
  | some (.jnum x) => numToStr x

/-- The `register` closure of `computeLegendData` (and the identical inline
loop body of `computeLegendDataFromGrid`), applied to an already-computed
key: skip if the key is seen or the palette is exhausted, otherwise append
the entry colored with `colors[categories.length % colors.length]`. -/
def registerKey (colors : List String) (st : List CatEntry) (key : String) : List CatEntry :=
  if st.any (fun e => e.value = key) || colors.length ≤ st.length then st
  else st ++ [⟨key, (colors.get? (st.length % colors.length)).getD "undefined"⟩]

/-- The categorical legend loop: fold `register` over the raw field values in
order, then synthesize a single `"Unknown"` entry if nothing was registered. -/
def computeLegendCat (numToStr : α → String) (colors : List String)
    (raws : List (Option (JVal α))) : List CatEntry :=
  let cats := raws.foldl (fun st raw => registerKey colors st (jsKey numToStr raw)) []
  if cats.isEmpty then registerKey colors [] "Unknown" else cats

/-- Running min/max update, mirroring `if (value < min) min = value;
if (value > max) max = value;` with the `Infinity`/`-Infinity` initial
state rendered as `none`. -/
def updMinMax [LinearOrder β] : Option (β × β) → β → Option (β × β)
  | none, x => some (x, x)
  | some (mn, mx), x => some (if x < mn then x else mn, if x > mx then x else mx)

/-- Legend descriptors (tagged union).  Point legends carry
`originalMin = originalMax = none` (the fields are absent in the source
object) and `useLog = false`; grid legends fill all fields. -/
inductive Legend (α : Type) where
  | numeric (min max : α) (originalMin originalMax : Option α) (useLog : Bool)
  | categorical (categories : List CatEntry)
deriving DecidableEq, Repr

/-- The `computeLegendData(features, variable, colorMapId)` function
(site/point path).  Numeric path: running min/max over coerced values,
`null` when none are finite, widening `max` to `min + 1` when degenerate.
There is no fallback to the metadata bounds on this path. -/
def computeLegendData (numParse : String → Option α) (numToStr : α → String)
    (features : List (Feature α)) (vbl : Option (Variable α))
    (colorMapId : String) : Option (Legend α) :=
  match vbl with
  | none => none
  | some v =>
    match v.type with
    | .categorical =>
      let m := resolveCatMap colorMapId
      some (.categorical (computeLegendCat numToStr m.colors
        (features.map (fun f => getProp f v.id))))
    | .numeric =>
      let mm := features.foldl
        (fun acc f =>
          match toNumber numParse (getProp f v.id) with
          | none => acc
          | some x => updMinMax acc x) none
      match mm with
      | none => none
      | some (mn, mx) =>
        some (.numeric mn (if mn = mx then mn + 1 else mx) none none false)

/-- The `applyLogScale(value)` helper, with `Math.log` abstract as `jlog`:
`null`/`undefined`, non-numeric and negative inputs give `null`, otherwise
`log(1 + value)`. -/
def applyLogScale (numParse : String → Option α) (jlog : α → α) :
    Option (JVal α) → Option α
  | none => none
  | some .jnull => none
  | some v =>
    match toNumber numParse (some v) with
    | none => none
    | some numValue => if numValue < 0 then none else some (jlog (1 + numValue))

/-- Loop body of the numeric path of `computeLegendDataFromGrid`: coerce the
row's field value (skip when not numeric), always track original-space
min/max, and track color-space min/max of the (optionally log-transformed)
value, skipping values the transform rejects. -/
def gridNumericStep (numParse : String → Option α) (jlog : α → α) (i : String)
    (useLogScale : Bool) (acc : Option (α × α) × Option (α × α))
    (row : List (String × JVal α)) : Option (α × α) × Option (α × α) :=
  match toNumber numParse (row.lookup i) with
  | none => acc
  | some originalValue =>
    let oacc := updMinMax acc.2 originalValue
    if useLogScale then
      match applyLogScale numParse jlog (some (.jnum originalValue)) with
      | none => (acc.1, oacc)
      | some tv => (updMinMax acc.1 tv, oacc)
    else (updMinMax acc.1 originalValue, oacc)

/-- The `computeLegendDataFromGrid(valuesMap, variable, useLogScale)`
function.  Rows are `Object.values(valuesMap)` in order; each row is a
property map.  The numeric path tracks original-space min/max alongside
(possibly log-transformed) color-space min/max, falls back to the metadata
bounds `variable.min`/`variable.max` when no transformed value was finite,
returns `null` when still not finite, and widens a degenerate range. -/
def computeLegendDataFromGrid (numParse : String → Option α) (numToStr : α → String)
    (jlog : α → α) (rows : List (List (String × JVal α)))
    (vbl : Option (Variable α)) (useLogScale : Bool) : Option (Legend α) :=
  match vbl with
  | none => none
  | some v =>
    match v.type with
    | .categorical =>
      some (.categorical (computeLegendCat numToStr CATEGORY_COLORS
        (rows.map (fun row => row.lookup v.id))))
    | .numeric =>
      let r := rows.foldl (gridNumericStep numParse jlog v.id useLogScale) (none, none)
      let metaMin := toNumber numParse v.min
      let metaMax := toNumber numParse v.max
      let fallback :=
        match r.1 with
        | some mm => (some mm, r.2)
        | none =>
          let mm :=
            match metaMin, metaMax with
            | some a, some b =>
              if useLogScale then
                match applyLogScale numParse jlog (some (.jnum a)),
                      applyLogScale numParse jlog (some (.jnum b)) with
                | some x, some y => some (x, y)
                | _, _ => none
              else some (a, b)
            | _, _ => none
          (mm, match metaMin, metaMax with
               | some a, some b => some (a, b)
               | _, _ => none)
      match fallback.1 with
      | none => none
      | some (mn, mx) =>
        let mx := if mn = mx then mn + 1 else mx
        let oo :=
          match fallback.2 with
          | some p => (some p.1, some p.2)
          | none => (metaMin, metaMax)
        some (.numeric mn mx oo.1 oo.2 useLogScale)

/-- Endpoint values shown by `updateGridLegendPanel`: `displayMin/Max =
legend.originalMin !== undefined ? legend.originalMin : legend.min` (and
likewise for max); categorical legends have no numeric endpoints. -/
def displayBounds : Legend α → Option (α × α)
  | .numeric mn mx om oM _ => some (om.getD mn, oM.getD mx)
  | .categorical _ => none

/-- JavaScript `Math.round` (round half toward positive infinity). -/
def jsRound [FloorRing α] (x : α) : ℤ := ⌊x + 1 / 2⌋

/-- The `interpolateColor(t, colorMap)` function: clamp `t` to `[0,1]` and
interpolate each channel between the palette start and end colors. -/
def interpolateColor [FloorRing α] (t : α) (colorMap : Option ContMap) : String :=
  let c := min 1 (max 0 t)
  let start := (colorMap.map (fun m => m.start)).getD (91, 99, 244)
  let stop := (colorMap.map (fun m => m.endc)).getD (239, 68, 68)
  let chan := fun (s e : ℤ) => jsRound ((s : α) + ((e : α) - (s : α)) * c)
  "rgb(" ++ toString (chan start.1 stop.1) ++ ", " ++
    toString (chan start.2.1 stop.2.1) ++ ", " ++
    toString (chan start.2.2 stop.2.2) ++ ")"

/-- Categorical branch of `colorForValue`: compute the key, look it up among
the legend categories; if found, index the resolved palette modulo its
length, otherwise consult the legend value-to-color map and finally fall
back to the neutral gray. -/
def colorForCategorical (numToStr : α → String) (m : CatMap)
    (categories : List CatEntry) (value : Option (JVal α)) : String :=
  let key := jsKey numToStr value
  match categories.findIdx? (fun c => c.value = key) with
  | some i => (m.colors.get? (i % m.colors.length)).getD "undefined"
  | none =>
    match (categories.map (fun e => (e.value, e.color))).lookup key with
    | some c => c
    | none => "#94a3b8"

/-- The `colorForValue(value, legend, colorMapId)` function.  `none` legend
gives black; a numeric legend maps `null` to the missing-value gray and
numbers through `interpolateColor`; a categorical legend delegates to
`colorForCategorical` with the palette resolved from `colorMapId`. -/
def colorForValue [FloorRing α] (numParse : String → Option α)
    (numToStr : α → String) (value : Option (JVal α))
    (legend : Option (Legend α)) (colorMapId : String) : String :=
  match legend with
  | none => "#000000"
  | some (.numeric mn mx _ _ _) =>
    match value with
    | some .jnull => "#94a3b8"
    | some (.jnum x) =>
      interpolateColor ((x - mn) / (mx - mn)) (some (resolveContMap colorMapId))
    | some (.jstr s) =>
      match numParse s with
      | some q => interpolateColor ((q - mn) / (mx - mn)) (some (resolveContMap colorMapId))
      | none => "rgb(NaN, NaN, NaN)"
    | none => "rgb(NaN, NaN, NaN)"
  | some (.categorical cats) =>
    colorForCategorical numToStr (resolveCatMap colorMapId) cats value

/-- The `PTI_SCORES` constant: the seven fixed indicator score ids and labels. -/
def PTI_SCORES : List (String × String) :=
  [("population_score", "Population pressure"),
   ("displacement_score", "Displacement"),
   ("climate_score", "Climate exposure"),
   ("conflict_score", "Conflict"),
   ("food_nutrition_security_score", "Food & nutrition"),
   ("access_services_score", "Access to services"),
   ("economic_activity_score", "Economic activity")]

/-- The `recomputeScores` function.  `state.weights` is an insertion-ordered
object, modelled as a list of `(scoreId, needWeight, oppWeight)` in
`PTI_SCORES` order; the reduction multiplies the need weight at index `i` by
`0.1 * (i + 1)` and the opportunity weight by `0.08 * (i + 1)` (`0.1 = 1/10`,
`0.08 = 2/25`).  The function reads nothing besides the weight table. -/
def recomputeScores (weights : List (String × α × α)) : α × α × α :=
  let need := weights.enum.foldl
    (fun sum p => sum + p.2.2.1 * (1 / 10 * ((p.1 : α) + 1))) 0
  let opportunity := weights.enum.foldl
    (fun sum p => sum + p.2.2.2 * (2 / 25 * ((p.1 : α) + 1))) 0
  (need, opportunity, need + opportunity)

/-- A dataset descriptor; only the facets the modelled logic reads are kept
(`label` and `color_fields`; detail/display fields are presentational). -/
structure DatasetConfig (α : Type) where
  label : String
  color_fields : List (Variable α)

/-- The mutable `state` object of the component. -/
structure ViewState (α : Type) where
  siteDataset : String
  siteVariable : String
  features : List (Feature α)
  selectedIndex : ℕ
  markerSize : ℤ
  showSites : Bool
  showGrid : Bool
  colorMap : String
  gridLayer : String
  gridVariable : String
  useLogScale : Bool
  weights : List (String × α × α)

/-- The `updateSiteVariables` + `updateColorMapOptions` pass: reset
`siteVariable` to `"__none__"` when it is not a colorable field of the
active dataset, and reset `colorMap` to the first palette of the new
field's kind when the current one does not belong to that kind. -/
def updateSiteVariablesState (catalog : List (String × DatasetConfig α))
    (st : ViewState α) : ViewState α :=
  match catalog.lookup st.siteDataset with
  | none => st
  | some ds =>
    let sv :=
      if st.siteVariable = "__none__" then "__none__"
      else if (ds.color_fields.find? (fun f => f.id = st.siteVariable)).isNone then "__none__"
      else st.siteVariable
    let vb := if sv = "__none__" then none else ds.color_fields.find? (fun f => f.id = sv)
    let cm :=
      match vb with
      | none => st.colorMap
      | some v =>
        let ids :=
          match v.type with
          | .categorical => categoricalMaps.map (fun (m : CatMap) => m.id)
          | .numeric => continuousMaps.map (fun (m : ContMap) => m.id)
        if ids.contains st.colorMap then st.colorMap else (ids.head?).getD st.colorMap
    { st with siteVariable := sv, colorMap := cm }

/-- The `siteDatasetSelect` change handler: store the new dataset and its
features, reset `selectedIndex` to 0, rebuild the variable choices, and call
`refreshMarkers(true)`; the returned flag is the `shouldFit` argument. -/
def onSiteDatasetChange (catalog : List (String × DatasetConfig α))
    (featuresTable : String → List (Feature α)) (st : ViewState α)
    (newId : String) : ViewState α × Bool :=
  let st1 := { st with siteDataset := newId, features := featuresTable newId,
                       selectedIndex := 0 }
  (updateSiteVariablesState catalog st1, true)

/-- The `siteVariableSelect` change handler: store the new color field,
rebuild choices, and call `refreshMarkers()` (so `shouldFit` is `false`). -/
def onSiteVariableChange (catalog : List (String × DatasetConfig α))
    (st : ViewState α) (newVar : String) : ViewState α × Bool :=
  (updateSiteVariablesState catalog { st with siteVariable := newVar }, false)

/-- Whether `refreshMarkers(shouldFit)` reaches its `fitBounds`/`setView`
call: it returns early when sites are hidden or there are no features, and
fits only when `shouldFit` is set. -/
def refreshMarkersFits (st : ViewState α) (shouldFit : Bool) : Bool :=
  shouldFit && st.showSites && !st.features.isEmpty

/-- The `toggleLogScale` change handler (the subsequent `renderGridOverlay`
recomputes the grid legend from the state, see `currentGridLegend`). -/
def onToggleLogScale (st : ViewState α) (checked : Bool) : ViewState α :=
  { st with useLogScale := checked }

/-- The grid legend `renderGridOverlay` computes for the current state. -/
def currentGridLegend (numParse : String → Option α) (numToStr : α → String)
    (jlog : α → α) (rows : List (List (String × JVal α)))
    (vbl : Option (Variable α)) (st : ViewState α) : Option (Legend α) :=
  computeLegendDataFromGrid numParse numToStr jlog rows vbl st.useLogScale

/-- The marker-size input listener's value computation:
`Math.max(1, Math.min(18, parseInt(value, 10) || 3))`.  The argument is the
`parseInt` result (`none` = `NaN`); note that `0` is falsy in JavaScript, so
`parseInt(...) || 3` replaces an entered `0` by the default `3`. -/
def markerSizeFromInput (parsed : Option ℤ) : ℤ :=
  let v :=
    match parsed with
    | none => 3
    | some k => if k = 0 then 3 else k
  max 1 (min 18 v)

/-- The marker-size input listener: store the clamped value. -/
def onMarkerSizeInput (st : ViewState α) (parsed : Option ℤ) : ViewState α :=
  { st with markerSize := markerSizeFromInput parsed }

/-- The weights-table input listener's value computation:
`Math.max(-1, Math.min(1, parseFloat(value) || 0))` (`none` = `NaN`). -/
def weightFromInput (parsed : Option α) : α :=
  let v :=
    match parsed with
    | none => 0
    | some q => if q = 0 then 0 else q
  max (-1) (min 1 v)

/-- Which weight column a cell edit targets. -/
inductive WKind where
  | need
  | opp
deriving DecidableEq, Repr

/-- The weights-table input listener: store the clamped value in the edited
cell; no score recomputation happens here. -/
def onWeightInput (st : ViewState α) (scoreId : String) (kind : WKind)
    (parsed : Option α) : ViewState α :=
  { st with weights := st.weights.map (fun w =>
      if w.1 = scoreId then
        match kind with
        | .need => (w.1, weightFromInput parsed, w.2.2)
        | .opp => (w.1, w.2.1, weightFromInput parsed)
      else w) }

/-- RGB triple rendered as a CSS color, as in the legend panel's
`rgb(${map.start[0]}, ${map.start[1]}, ${map.start[2]})` template. -/
def rgbString (c : ℤ × ℤ × ℤ) : String :=
  "rgb(" ++ toString c.1 ++ ", " ++ toString c.2.1 ++ ", " ++ toString c.2.2 ++ ")"

/-- Invariant of the category list built by `registerKey`: the entry colors
are exactly an initial segment of the palette, and the registered values are
pairwise distinct. -/
def CatInv (colors : List String) (st : List CatEntry) : Prop :=
  st.map CatEntry.color = colors.take st.length ∧ (st.map CatEntry.value).Nodup

/-- The numeric values a field extracts from an item collection (coerced by
`toNumber`, absent and non-numeric values skipped). -/
def numericFieldValues (numParse : String → Option α) (features : List (Feature α))
    (i : String) : List α :=
  features.filterMap (fun f => toNumber numParse (getProp f i))

/-- The numeric values a field extracts from the grid values map. -/
def gridNumericValues (numParse : String → Option α)
    (rows : List (List (String × JVal α))) (i : String) : List α :=
  rows.filterMap (fun row => toNumber numParse (row.lookup i))

/-! Helper lemmas about the running min/max fold. -/

lemma updMinMax_some_eq {β : Type} [LinearOrder β] (a b x : β) :
    updMinMax (some (a, b)) x = some (min a x, max b x) := by
  show some (if x < a then x else a, if x > b then x else b) = some (min a x, max b x)
  rcases lt_or_ge x a with h | h
  · rw [if_pos h, min_eq_right h.le]
    rcases lt_or_ge b x with h2 | h2
    · rw [if_pos h2, max_eq_right h2.le]
    · rw [if_neg (not_lt.mpr h2), max_eq_left h2]
  · rw [if_neg (not_lt.mpr h), min_eq_left h]
    rcases lt_or_ge b x with h2 | h2
    · rw [if_pos h2, max_eq_right h2.le]
    · rw [if_neg (not_lt.mpr h2), max_eq_left h2]

lemma foldl_updMinMax_some {β : Type} [LinearOrder β] (l : List β) :
    ∀ a b : β, l.foldl updMinMax (some (a, b)) =
      some (l.foldl min a, l.foldl max b) := by
  induction l with
  | nil => intro a b; rfl
  | cons x xs ih =>
    intro a b
    simp only [List.foldl_cons, updMinMax_some_eq, ih]

lemma foldl_min_le_init {β : Type} [LinearOrder β] (l : List β) :
    ∀ a : β, l.foldl min a ≤ a := by
  induction l with
  | nil => intro a; exact le_refl a
  | cons x xs ih =>
    intro a
    exact le_trans (ih (min a x)) (min_le_left a x)

lemma foldl_min_le_mem {β : Type} [LinearOrder β] (l : List β) :
    ∀ a : β, ∀ y ∈ l, l.foldl min a ≤ y := by
  induction l with
  | nil => intro a y hy; cases hy
  | cons x xs ih =>
    intro a y hy
    rcases List.mem_cons.mp hy with rfl | hy
    · exact le_trans (foldl_min_le_init xs (min a y)) (min_le_right a y)
    · exact ih (min a x) y hy

lemma foldl_min_mem {β : Type} [LinearOrder β] (l : List β) :
    ∀ a : β, l.foldl min a = a ∨ l.foldl min a ∈ l := by
  induction l with
  | nil => intro a; exact Or.inl rfl
  | cons x xs ih =>
    intro a
    rcases ih (min a x) with h | h
    · rcases min_choice a x with hc | hc
      · exact Or.inl (by rw [List.foldl_cons, h, hc])
      · exact Or.inr (by rw [List.foldl_cons, h, hc]; exact List.mem_cons_self x xs)
    · exact Or.inr (List.mem_cons_of_mem x h)

lemma init_le_foldl_max {β : Type} [LinearOrder β] (l : List β) :
    ∀ a : β, a ≤ l.foldl max a := by
  induction l with
  | nil => intro a; exact le_refl a
  | cons x xs ih =>
    intro a
    exact le_trans (le_max_left a x) (ih (max a x))

lemma mem_le_foldl_max {β : Type} [LinearOrder β] (l : List β) :
    ∀ a : β, ∀ y ∈ l, y ≤ l.foldl max a := by
  induction l with
  | nil => intro a y hy; cases hy
  | cons x xs ih =>
    intro a y hy
    rcases List.mem_cons.mp hy with rfl | hy
    · exact le_trans (le_max_right a y) (init_le_foldl_max xs (max a y))
    · exact ih (max a x) y hy

lemma foldl_max_mem {β : Type} [LinearOrder β] (l : List β) :
    ∀ a : β, l.foldl max a = a ∨ l.foldl max a ∈ l := by
  induction l with
  | nil => intro a; exact Or.inl rfl
  | cons x xs ih =>
    intro a
    rcases ih (max a x) with h | h
    · rcases max_choice a x with hc | hc
      · exact Or.inl (by rw [List.foldl_cons, h, hc])
      · exact Or.inr (by rw [List.foldl_cons, h, hc]; exact List.mem_cons_self x xs)
    · exact Or.inr (List.mem_cons_of_mem x h)

/-- The numeric fold of `computeLegendData` is the min/max fold over the
coerced numeric values of the field. -/
lemma legend_numeric_fold_eq {α : Type} [LinearOrderedField α]
    (numParse : String → Option α) (i : String) (features : List (Feature α)) :
    ∀ acc : Option (α × α),
      features.foldl
        (fun acc f =>
          match toNumber numParse (getProp f i) with
          | none => acc
          | some x => updMinMax acc x) acc =
      (features.filterMap (fun f => toNumber numParse (getProp f i))).foldl updMinMax acc := by
  induction features with
  | nil => intro acc; rfl
  | cons f fs ih =>
    intro acc
    rw [List.foldl_cons, List.filterMap_cons]
    rcases h : toNumber numParse (getProp f i) with _ | x
    · simp only [ih]
    · simp only [List.foldl_cons, ih]

/-- Complete description of the min/max fold started from the empty state. -/
lemma foldl_updMinMax_none_spec {β : Type} [LinearOrder β] (l : List β)
    (mn mx : β) (h : l.foldl updMinMax none = some (mn, mx)) :
    mn ∈ l ∧ (∀ y ∈ l, mn ≤ y) ∧ mx ∈ l ∧ (∀ y ∈ l, y ≤ mx) := by
  cases l with
  | nil => cases h
  | cons x xs =>
    rw [List.foldl_cons] at h
    have hx : updMinMax (none : Option (β × β)) x = some (x, x) := rfl
    rw [hx, foldl_updMinMax_some] at h
    have hmn : mn = xs.foldl min x := by
      have := congrArg (fun o => Option.map Prod.fst o) h
      simpa using this.symm
    have hmx : mx = xs.foldl max x := by
      have := congrArg (fun o => Option.map Prod.snd o) h
      simpa using this.symm
    subst hmn hmx
    refine ⟨?_, ?_, ?_, ?_⟩
    · rcases foldl_min_mem xs x with h1 | h1
      · rw [h1]; exact List.mem_cons_self x xs
      · exact List.mem_cons_of_mem x h1
    · intro y hy
      rcases List.mem_cons.mp hy with rfl | hy
      · exact foldl_min_le_init xs y
      · exact foldl_min_le_mem xs x y hy
    · rcases foldl_max_mem xs x with h1 | h1
      · rw [h1]; exact List.mem_cons_self x xs
      · exact List.mem_cons_of_mem x h1
    · intro y hy
      rcases List.mem_cons.mp hy with rfl | hy
      · exact init_le_foldl_max xs y
      · exact mem_le_foldl_max xs x y hy

/-! Helper lemmas about the categorical register fold. -/

lemma catInv_nil (colors : List String) : CatInv colors [] :=
  ⟨rfl, List.nodup_nil⟩

lemma catInv_length_le {colors : List String} {st : List CatEntry}
    (h : CatInv colors st) : st.length ≤ colors.length := by
  have := congrArg List.length h.1
  rw [List.length_map, List.length_take] at this
  omega

lemma registerKey_inv {colors : List String} {st : List CatEntry} (key : String)
    (h : CatInv colors st) : CatInv colors (registerKey colors st key) := by
  unfold registerKey
  split
  · exact h
  · rename_i hcond
    rw [Bool.or_eq_true, not_or] at hcond
    obtain ⟨hseen, hlen⟩ := hcond
    have hlt : st.length < colors.length := by
      rcases Nat.lt_or_ge st.length colors.length with h1 | h1
      · exact h1
      · exact absurd (by exact decide_eq_true h1) hlen
    constructor
    · rw [List.map_append, List.length_append, h.1]
      have hmod : st.length % colors.length = st.length := Nat.mod_eq_of_lt hlt
      rw [List.map_singleton]
      show colors.take st.length ++ [(colors.get? (st.length % colors.length)).getD "undefined"]
        = colors.take (st.length + 1)
      rw [hmod, List.take_succ, List.get?_eq_get hlt]
      simp [List.getElem?_eq_getElem hlt, List.get_eq_getElem]
    · rw [List.map_append, List.map_singleton, List.nodup_append]
      refine ⟨h.2, List.nodup_singleton _, ?_⟩
      intro v hv hv1
      have hv2 : v = key := by simpa using hv1
      subst hv2
      obtain ⟨e, he, hev⟩ := List.mem_map.mp hv
      have : st.any (fun e => e.value = v) = true :=
        List.any_eq_true.mpr ⟨e, he, by simp [hev]⟩
      simp [this] at hseen

lemma foldl_registerKey_inv (colors : List String) (keys : List String) :
    ∀ st : List CatEntry, CatInv colors st →
      CatInv colors (keys.foldl (registerKey colors) st) := by
  induction keys with
  | nil => intro st h; exact h
  | cons k ks ih =>
    intro st h
    exact ih (registerKey colors st k) (registerKey_inv k h)

/-- The fold of `computeLegendCat` over raw values is the `registerKey` fold
over the computed keys. -/
lemma computeLegendCat_eq_fold {α : Type} [LinearOrderedField α]
    (numToStr : α → String) (colors : List String)
    (raws : List (Option (JVal α))) :
    computeLegendCat numToStr colors raws =
      (let cats := (raws.map (jsKey numToStr)).foldl (registerKey colors) []
       if cats.isEmpty then registerKey colors [] "Unknown" else cats) := by
  unfold computeLegendCat
  rw [List.foldl_map]

lemma computeLegendCat_inv {α : Type} [LinearOrderedField α]
    (numToStr : α → String) (colors : List String)
    (raws : List (Option (JVal α))) :
    CatInv colors (computeLegendCat numToStr colors raws) := by
  rw [computeLegendCat_eq_fold]
  have h := foldl_registerKey_inv colors (raws.map (jsKey numToStr)) [] (catInv_nil colors)
  simp only []
  split
  · exact registerKey_inv "Unknown" (catInv_nil colors)
  · exact h

/-- When no raw value is supplied, the legend is the single synthesized
`"Unknown"` entry carrying the first palette color. -/
lemma computeLegendCat_nil {α : Type} [LinearOrderedField α]
    (numToStr : α → String) (colors : List String) (hne : colors ≠ []) :
    computeLegendCat numToStr colors [] =
      [⟨"Unknown", (colors.get? 0).getD "undefined"⟩] := by
  unfold computeLegendCat registerKey
  cases colors with
  | nil => exact absurd rfl hne
  | cons c cs => rfl

/-- Every categorical palette in `COLOR_MAPS.categorical` is nonempty with
pairwise-distinct colors. -/
lemma categoricalMaps_colors_ok :
    ∀ m ∈ categoricalMaps, m.colors ≠ [] ∧ m.colors.Nodup := by
  decide

/-- Palette resolution lands inside the fixed palette list. -/
lemma resolveCatMap_mem (colorMapId : String) :
    resolveCatMap colorMapId ∈ categoricalMaps := by
  unfold resolveCatMap
  rcases h : categoricalMaps.find? (fun m => m.id = colorMapId) with _ | m
  · rw [h]
    show (⟨"default", CATEGORY_COLORS⟩ : CatMap) ∈ categoricalMaps
    simp [categoricalMaps]
  · rw [h]
    exact List.mem_of_find?_eq_some h

lemma gridNumericStep_foldl_skip {α : Type} [LinearOrderedField α]
    (numParse : String → Option α) (jlog : α → α) (i : String) (ul : Bool)
    (rows : List (List (String × JVal α)))
    (h : ∀ row ∈ rows, toNumber numParse (row.lookup i) = none) :
    rows.foldl (gridNumericStep numParse jlog i ul) (none, none) = (none, none) := by
  induction rows with
  | nil => rfl
  | cons r rs ih =>
    rw [List.foldl_cons]
    have hr : gridNumericStep numParse jlog i ul (none, none) r = (none, none) := by
      unfold gridNumericStep
      rw [h r (List.mem_cons_self r rs)]
    rw [hr]
    exact ih (fun row hrow => h row (List.mem_cons_of_mem r hrow))

/-- C1, counterexample.  A feature collection with no numeric value for the
field, while the field's metadata bounds are the finite pair `[0, 10]`:
`computeLegendData` returns `null` instead of falling back to the metadata,
so the claimed fallback does not exist on the per-feature path. -/
theorem C1_counterexample :
    computeLegendData (fun _ => (none : Option ℚ)) (fun q => toString q)
        [⟨[("v", JVal.jstr "x")]⟩]
        (some ⟨"v", .numeric, some (.jnum 0), some (.jnum 10)⟩) "blue-red" = none
    ∧ toNumber (fun _ => (none : Option ℚ)) (some (.jnum 0)) = some 0
    ∧ toNumber (fun _ => (none : Option ℚ)) (some (.jnum 10)) = some 10 := by
  exact ⟨rfl, rfl, rfl⟩

/-- C1, amended.  On the numeric path, `computeLegendData` returns the
running min/max of the coerced numeric values (with `max` widened to
`min + 1` when the range is degenerate) and returns `null` whenever no
numeric value is found, never consulting the metadata bounds; the metadata
fallback exists only in the grid variant `computeLegendDataFromGrid`, which
uses the field's nominal `[min, max]` when no numeric value is found and
returns `null` only if that fallback is still not numeric. -/
theorem C1_numeric_minmax_and_fallback {α : Type} [LinearOrderedField α]
    (numParse : String → Option α) (numToStr : α → String) (jlog : α → α)
    (features : List (Feature α)) (rows : List (List (String × JVal α)))
    (v : Variable α) (colorMapId : String) (hv : v.type = .numeric) :
    (numericFieldValues numParse features v.id = [] →
      computeLegendData numParse numToStr features (some v) colorMapId = none) ∧
    (∀ mn mx om oM ul,
      computeLegendData numParse numToStr features (some v) colorMapId
          = some (.numeric mn mx om oM ul) →
      mn ∈ numericFieldValues numParse features v.id ∧
      (∀ y ∈ numericFieldValues numParse features v.id, mn ≤ y) ∧
      ∃ M, M ∈ numericFieldValues numParse features v.id ∧
        (∀ y ∈ numericFieldValues numParse features v.id, y ≤ M) ∧
        mx = (if mn = M then mn + 1 else M)) ∧
    (gridNumericValues numParse rows v.id = [] →
      computeLegendDataFromGrid numParse numToStr jlog rows (some v) false =
        (match toNumber numParse v.min, toNumber numParse v.max with
         | some a, some b =>
           some (.numeric a (if a = b then a + 1 else b) (some a) (some b) false)
         | _, _ => none)) := by
  obtain ⟨vid, vt, vmin, vmax⟩ := v
  simp only [Variable.type] at hv
  subst hv
  refine ⟨?_, ?_, ?_⟩
  · intro hvals
    simp only [computeLegendData]
    rw [legend_numeric_fold_eq]
    unfold numericFieldValues at hvals
    rw [hvals]
    rfl
  · intro mn mx om oM ul hleg
    simp only [computeLegendData] at hleg
    rw [legend_numeric_fold_eq] at hleg
    rcases h2 : (numericFieldValues numParse features vid).foldl updMinMax none
      with _ | ⟨a, b⟩
    · unfold numericFieldValues at h2
      rw [h2] at hleg
      cases hleg
    · unfold numericFieldValues at h2
      rw [h2] at hleg
      simp only [Option.some.injEq, Legend.numeric.injEq] at hleg
      obtain ⟨hmn, hmx, -, -, -⟩ := hleg
      obtain ⟨ha1, ha2, hb1, hb2⟩ := foldl_updMinMax_none_spec _ a b h2
      subst hmn
      exact ⟨ha1, ha2, b, hb1, hb2, hmx.symm⟩
  · intro hvals
    simp only [computeLegendDataFromGrid]
    unfold gridNumericValues at hvals
    rw [List.filterMap_eq_nil_iff] at hvals
    rw [gridNumericStep_foldl_skip _ _ _ _ _ hvals]
    rcases h1 : toNumber numParse vmin with _ | a
    · simp
    · rcases h2 : toNumber numParse vmax with _ | b
      · simp
      · simp

/-- C1, witness for the amended theorem at a concrete input. -/
theorem C1_witness :
    (Variable.type (⟨"v", .numeric, none, none⟩ : Variable ℚ) = VarKind.numeric) ∧
    ((numericFieldValues (fun _ => (none : Option ℚ)) [] "v" = [] →
      computeLegendData (fun _ => (none : Option ℚ)) (fun q => toString q) []
        (some (⟨"v", .numeric, none, none⟩ : Variable ℚ)) "blue-red" = none) ∧
     (∀ mn mx om oM ul,
      computeLegendData (fun _ => (none : Option ℚ)) (fun q => toString q) []
          (some (⟨"v", .numeric, none, none⟩ : Variable ℚ)) "blue-red"
          = some (.numeric mn mx om oM ul) →
      mn ∈ numericFieldValues (fun _ => (none : Option ℚ)) [] "v" ∧
      (∀ y ∈ numericFieldValues (fun _ => (none : Option ℚ)) [] "v", mn ≤ y) ∧
      ∃ M, M ∈ numericFieldValues (fun _ => (none : Option ℚ)) [] "v" ∧
        (∀ y ∈ numericFieldValues (fun _ => (none : Option ℚ)) [] "v", y ≤ M) ∧
        mx = (if mn = M then mn + 1 else M)) ∧
     (gridNumericValues (fun _ => (none : Option ℚ)) [] "v" = [] →
      computeLegendDataFromGrid (fun _ => (none : Option ℚ)) (fun q => toString q)
          (fun x => x) [] (some (⟨"v", .numeric, none, none⟩ : Variable ℚ)) false =
        (match toNumber (fun _ => (none : Option ℚ))
                 (Variable.min (⟨"v", .numeric, none, none⟩ : Variable ℚ)),
               toNumber (fun _ => (none : Option ℚ))
                 (Variable.max (⟨"v", .numeric, none, none⟩ : Variable ℚ)) with
         | some a, some b =>
           some (.numeric a (if a = b then a + 1 else b) (some a) (some b) false)
         | _, _ => none))) :=
  ⟨rfl, C1_numeric_minmax_and_fallback (fun _ => none) (fun q => toString q)
    (fun x => x) [] [] ⟨"v", .numeric, none, none⟩ "blue-red" rfl⟩

/-- C2.  Categorical legends (site path and grid path): at most
palette-size many entries, pairwise-distinct registered values,
pairwise-distinct assigned colors, a single synthesized `"Unknown"` entry
when the collection registers nothing, and the `null`/`undefined`/empty
raw values all collapse to the key `"Unknown"`. -/
theorem C2_categorical_legend_invariants {α : Type} [LinearOrderedField α]
    (numParse : String → Option α) (numToStr : α → String) (jlog : α → α)
    (features : List (Feature α)) (rows : List (List (String × JVal α)))
    (v : Variable α) (colorMapId : String) (ul : Bool)
    (hv : v.type = .categorical) :
    (∀ cats, computeLegendData numParse numToStr features (some v) colorMapId
        = some (.categorical cats) →
      cats.length ≤ (resolveCatMap colorMapId).colors.length ∧
      (cats.map CatEntry.value).Nodup ∧
      (cats.map CatEntry.color).Nodup ∧
      (features = [] →
        cats = [⟨"Unknown", ((resolveCatMap colorMapId).colors.get? 0).getD "undefined"⟩])) ∧
    (∀ cats, computeLegendDataFromGrid numParse numToStr jlog rows (some v) ul
        = some (.categorical cats) →
      cats.length ≤ CATEGORY_COLORS.length ∧
      (cats.map CatEntry.value).Nodup ∧
      (cats.map CatEntry.color).Nodup ∧
      (rows = [] →
        cats = [⟨"Unknown", (CATEGORY_COLORS.get? 0).getD "undefined"⟩])) ∧
    (∀ raw : Option (JVal α),
      (raw = none ∨ raw = some .jnull ∨ raw = some (.jstr "")) →
      jsKey numToStr raw = "Unknown") := by
  obtain ⟨vid, vt, vmin, vmax⟩ := v
  simp only [Variable.type] at hv
  subst hv
  have hdefault : (⟨"default", CATEGORY_COLORS⟩ : CatMap) ∈ categoricalMaps := by
    simp [categoricalMaps]
  have hcatcolors := categoricalMaps_colors_ok _ hdefault
  refine ⟨?_, ?_, ?_⟩
  · intro cats hleg
    simp only [computeLegendData, Option.some.injEq, Legend.categorical.injEq] at hleg
    subst hleg
    have hok := categoricalMaps_colors_ok _ (resolveCatMap_mem colorMapId)
    have hinv := computeLegendCat_inv numToStr (resolveCatMap colorMapId).colors
      (features.map (fun f => getProp f vid))
    refine ⟨catInv_length_le hinv, hinv.2, ?_, ?_⟩
    · rw [hinv.1]
      exact (List.take_sublist _ _).nodup hok.2
    · intro hfe
      subst hfe
      exact computeLegendCat_nil numToStr _ hok.1
  · intro cats hleg
    simp only [computeLegendDataFromGrid, Option.some.injEq, Legend.categorical.injEq] at hleg
    subst hleg
    have hinv := computeLegendCat_inv numToStr CATEGORY_COLORS
      (rows.map (fun row => row.lookup vid))
    refine ⟨catInv_length_le hinv, hinv.2, ?_, ?_⟩
    · rw [hinv.1]
      exact (List.take_sublist _ _).nodup hcatcolors.2
    · intro hro
      subst hro
      exact computeLegendCat_nil numToStr _ hcatcolors.1
  · rintro raw (rfl | rfl | rfl) <;> simp [jsKey]

/-- C2, witness at a concrete input. -/
theorem C2_witness :
    (Variable.type (⟨"v", .categorical, none, none⟩ : Variable ℚ) = VarKind.categorical) ∧
    ((∀ cats, computeLegendData (fun _ => (none : Option ℚ)) (fun q => toString q)
        [⟨[("v", JVal.jstr "A")]⟩, ⟨[("v", JVal.jnull)]⟩]
        (some (⟨"v", .categorical, none, none⟩ : Variable ℚ)) "default"
        = some (.categorical cats) →
      cats.length ≤ (resolveCatMap "default").colors.length ∧
      (cats.map CatEntry.value).Nodup ∧
      (cats.map CatEntry.color).Nodup ∧
      ([⟨[("v", JVal.jstr "A")]⟩, ⟨[("v", JVal.jnull)]⟩] = ([] : List (Feature ℚ)) →
        cats = [⟨"Unknown", ((resolveCatMap "default").colors.get? 0).getD "undefined"⟩])) ∧
    (∀ cats, computeLegendDataFromGrid (fun _ => (none : Option ℚ)) (fun q => toString q)
        (fun x => x) [] (some (⟨"v", .categorical, none, none⟩ : Variable ℚ)) false
        = some (.categorical cats) →
      cats.length ≤ CATEGORY_COLORS.length ∧
      (cats.map CatEntry.value).Nodup ∧
      (cats.map CatEntry.color).Nodup ∧
      (([] : List (List (String × JVal ℚ))) = [] →
        cats = [⟨"Unknown", (CATEGORY_COLORS.get? 0).getD "undefined"⟩])) ∧
    (∀ raw : Option (JVal ℚ),
      (raw = none ∨ raw = some .jnull ∨ raw = some (.jstr "")) →
      jsKey (fun q => toString q) raw = "Unknown")) :=
  ⟨rfl, C2_categorical_legend_invariants (fun _ => none) (fun q => toString q)
    (fun x => x) [⟨[("v", JVal.jstr "A")]⟩, ⟨[("v", JVal.jnull)]⟩] []
    ⟨"v", .categorical, none, none⟩ "default" false rfl⟩

/-! Helper lemmas for the categorical color fallback. -/

lemma lookup_map_pair_eq_none (cats : List CatEntry) (key : String)
    (h : ∀ e ∈ cats, e.value ≠ key) :
    (cats.map (fun e => (e.value, e.color))).lookup key = none := by
  induction cats with
  | nil => rfl
  | cons c cs ih =>
    rw [List.map_cons, List.lookup_cons]
    have hne : (key == c.value) = false := by
      simp only [beq_eq_false_iff_ne, ne_eq]
      exact fun hk => h c (List.mem_cons_self c cs) (hk.symm)
    rw [hne]
    exact ih (fun e he => h e (List.mem_cons_of_mem c he))

/-- When the computed key is not registered in the legend, the categorical
color resolver returns the neutral gray. -/
lemma colorForCategorical_unregistered {α : Type} [LinearOrderedField α]
    (numToStr : α → String) (m : CatMap) (cats : List CatEntry)
    (value : Option (JVal α))
    (h : ∀ e ∈ cats, e.value ≠ jsKey numToStr value) :
    colorForCategorical numToStr m cats value = "#94a3b8" := by
  unfold colorForCategorical
  have hidx : cats.findIdx? (fun c => c.value = jsKey numToStr value) = none := by
    rw [List.findIdx?_eq_none_iff]
    intro c hc
    simp only [decide_eq_false_iff_not]
    exact h c hc
  simp only [hidx, lookup_map_pair_eq_none cats _ h]

/-- C3, counterexample.  A categorical legend built from a single
`null`-valued feature registers the `"Unknown"` category, and
`colorFor(null, legend, "default")` then returns that category's palette
color `#5b63f4`, not the missing-value gray `#94a3b8`. -/
theorem C3_counterexample :
    colorForValue (fun _ => (none : Option ℚ)) (fun q => toString q)
        (some JVal.jnull)
        (computeLegendData (fun _ => (none : Option ℚ)) (fun q => toString q)
          [⟨[("v", JVal.jnull)]⟩]
          (some (⟨"v", .categorical, none, none⟩ : Variable ℚ)) "default")
        "default" = "#5b63f4"
    ∧ "#5b63f4" ≠ "#94a3b8" :=
  ⟨rfl, by decide⟩

/-- C3, amended.  `colorFor(null, legend, _)` returns the fixed
missing-value gray for every numeric legend, and for categorical legends
whose registered values do not include `"Unknown"`; when an `"Unknown"`
category is registered, the resolver returns that category's palette color
instead (see the counterexample). -/
theorem C3_null_gray_unless_unknown_registered :
    (∀ (mn mx : ℚ) (om oM : Option ℚ) (ul : Bool) (colorMapId : String)
       (numParse : String → Option ℚ) (numToStr : ℚ → String),
      colorForValue numParse numToStr (some JVal.jnull)
        (some (.numeric mn mx om oM ul)) colorMapId = "#94a3b8") ∧
    (∀ (cats : List CatEntry) (colorMapId : String)
       (numParse : String → Option ℚ) (numToStr : ℚ → String),
      "Unknown" ∉ cats.map CatEntry.value →
      colorForValue numParse numToStr (some JVal.jnull)
        (some (.categorical cats)) colorMapId = "#94a3b8") := by
  constructor
  · intro mn mx om oM ul colorMapId numParse numToStr
    rfl
  · intro cats colorMapId numParse numToStr h
    show colorForCategorical numToStr (resolveCatMap colorMapId) cats (some JVal.jnull)
      = "#94a3b8"
    refine colorForCategorical_unregistered numToStr _ cats (some JVal.jnull) ?_
    intro e he hev
    exact h (List.mem_map.mpr ⟨e, he, hev⟩)

/-! Helper lemmas for the gradient endpoints. -/

lemma jsRound_intCast {α : Type} [LinearOrderedField α] [FloorRing α] (n : ℤ) :
    jsRound ((n : α)) = n := by
  unfold jsRound
  rw [Int.floor_eq_iff]
  constructor
  · have : (0 : α) ≤ 1 / 2 := by norm_num
    linarith
  · have : (1 : α) / 2 < 1 := by norm_num
    linarith

lemma interpolateColor_zero {α : Type} [LinearOrderedField α] [FloorRing α] (m : ContMap) :
    interpolateColor (0 : α) (some m) = rgbString m.start := by
  unfold interpolateColor rgbString
  have h0 : min (1 : α) (max 0 0) = 0 := by simp
  simp only [Option.map_some', Option.getD_some, h0, mul_zero, add_zero, jsRound_intCast]

lemma interpolateColor_one {α : Type} [LinearOrderedField α] [FloorRing α] (m : ContMap) :
    interpolateColor (1 : α) (some m) = rgbString m.endc := by
  unfold interpolateColor rgbString
  have h1 : min (1 : α) (max 0 1) = 1 := by simp
  have key : ∀ s e : α, s + (e - s) * 1 = e := fun s e => by ring
  simp only [Option.map_some', Option.getD_some, h1, key, jsRound_intCast]

/-- C4.  Every numeric legend the site path produces has `min < max`
strictly (single-valued data is widened to `max = min + 1`), and the color
resolver sends `legend.min` to the resolved continuous palette's start
color and `legend.max` to its end color, exactly. -/
theorem C4_numeric_legend_endpoints {α : Type} [LinearOrderedField α] [FloorRing α]
    (numParse : String → Option α) (numToStr : α → String)
    (features : List (Feature α)) (v : Variable α) (colorMapId : String)
    (mn mx : α) (om oM : Option α) (ul : Bool)
    (hv : v.type = .numeric)
    (hleg : computeLegendData numParse numToStr features (some v) colorMapId
      = some (.numeric mn mx om oM ul)) :
    mn < mx ∧
    ((∀ y ∈ numericFieldValues numParse features v.id, y = mn) → mx = mn + 1) ∧
    colorForValue numParse numToStr (some (.jnum mn))
        (some (.numeric mn mx om oM ul)) colorMapId
      = rgbString (resolveContMap colorMapId).start ∧
    colorForValue numParse numToStr (some (.jnum mx))
        (some (.numeric mn mx om oM ul)) colorMapId
      = rgbString (resolveContMap colorMapId).endc := by
  obtain ⟨vid, vt, vmin, vmax⟩ := v
  simp only [Variable.type] at hv
  subst hv
  simp only [computeLegendData] at hleg
  rw [legend_numeric_fold_eq] at hleg
  rcases h2 : (features.filterMap (fun f => toNumber numParse (getProp f vid))).foldl
      updMinMax none with _ | ⟨a, b⟩
  · rw [h2] at hleg
    cases hleg
  · rw [h2] at hleg
    simp only [Option.some.injEq, Legend.numeric.injEq] at hleg
    obtain ⟨hmn, hmx, -, -, -⟩ := hleg
    subst hmn
    obtain ⟨ha1, ha2, hb1, hb2⟩ := foldl_updMinMax_none_spec _ a b h2
    have hab : a ≤ b := ha2 b hb1
    have hlt : a < mx := by
      rcases eq_or_ne a b with rfl | hne
      · rw [← hmx, if_pos rfl]
        exact lt_add_one a
      · rw [← hmx, if_neg hne]
        exact lt_of_le_of_ne hab hne
    refine ⟨hlt, ?_, ?_, ?_⟩
    · intro hall
      have hb : b = a := hall b hb1
      rw [← hmx, hb, if_pos rfl]
    · show interpolateColor ((a - a) / (mx - a)) (some (resolveContMap colorMapId))
        = rgbString (resolveContMap colorMapId).start
      rw [sub_self, zero_div, interpolateColor_zero]
    · show interpolateColor ((mx - a) / (mx - a)) (some (resolveContMap colorMapId))
        = rgbString (resolveContMap colorMapId).endc
      rw [div_self (sub_ne_zero.mpr (ne_of_gt hlt)), interpolateColor_one]

/-- C4, witness at the concrete values `[0, 5, 10]`. -/
theorem C4_witness :
    (Variable.type (⟨"v", .numeric, none, none⟩ : Variable ℚ) = VarKind.numeric) ∧
    (computeLegendData (fun _ => (none : Option ℚ)) (fun q => toString q)
        [⟨[("v", JVal.jnum 0)]⟩, ⟨[("v", JVal.jnum 5)]⟩, ⟨[("v", JVal.jnum 10)]⟩]
        (some (⟨"v", .numeric, none, none⟩ : Variable ℚ)) "blue-red"
        = some (.numeric 0 10 none none false)) ∧
    ((0 : ℚ) < 10 ∧
     ((∀ y ∈ numericFieldValues (fun _ => (none : Option ℚ))
          [⟨[("v", JVal.jnum 0)]⟩, ⟨[("v", JVal.jnum 5)]⟩, ⟨[("v", JVal.jnum 10)]⟩] "v",
        y = 0) → (10 : ℚ) = 0 + 1) ∧
     colorForValue (fun _ => (none : Option ℚ)) (fun q => toString q)
         (some (.jnum 0)) (some (.numeric 0 10 none none false)) "blue-red"
       = rgbString (resolveContMap "blue-red").start ∧
     colorForValue (fun _ => (none : Option ℚ)) (fun q => toString q)
         (some (.jnum 10)) (some (.numeric 0 10 none none false)) "blue-red"
       = rgbString (resolveContMap "blue-red").endc) :=
  ⟨rfl, by decide,
   C4_numeric_legend_endpoints (fun _ => none) (fun q => toString q)
     [⟨[("v", JVal.jnum 0)]⟩, ⟨[("v", JVal.jnum 5)]⟩, ⟨[("v", JVal.jnum 10)]⟩]
     ⟨"v", .numeric, none, none⟩ "blue-red" 0 10 none none false rfl (by decide)⟩

/-- C5, counterexample.  With the register loop run over values
`["A","B","A","C"]` and a 2-color palette, the legend registers exactly
`"A"` and `"B"`; but `colorFor("C", legend)` returns the neutral gray
`#94a3b8`, not the palette's index-0 color, because the direct
value-to-color fallback map also has no entry for `"C"`. -/
theorem C5_counterexample :
    ((computeLegendCat (fun (q : ℚ) => toString q) ["#c1", "#c2"]
        [some (.jstr "A"), some (.jstr "B"), some (.jstr "A"), some (.jstr "C")]).map
        CatEntry.value = ["A", "B"]) ∧
    colorForCategorical (fun (q : ℚ) => toString q) ⟨"two", ["#c1", "#c2"]⟩
        (computeLegendCat (fun (q : ℚ) => toString q) ["#c1", "#c2"]
          [some (.jstr "A"), some (.jstr "B"), some (.jstr "A"), some (.jstr "C")])
        (some (.jstr "C")) = "#94a3b8" ∧
    "#94a3b8" ≠ "#c1" :=
  ⟨rfl, rfl, by decide⟩

/-- C5, amended.  In the two-color scenario the legend registers exactly
`"A"` and `"B"` (with the two palette colors), and `colorFor("C", legend)`
falls back to the neutral gray `#94a3b8` rather than failing — in general,
any key that was never registered in the legend resolves to the neutral
gray, since the direct value-to-color map contains exactly the registered
values. -/
theorem C5_two_color_palette_scenario :
    (computeLegendCat (fun (q : ℚ) => toString q) ["#c1", "#c2"]
        [some (.jstr "A"), some (.jstr "B"), some (.jstr "A"), some (.jstr "C")]
      = [⟨"A", "#c1"⟩, ⟨"B", "#c2"⟩]) ∧
    colorForCategorical (fun (q : ℚ) => toString q) ⟨"two", ["#c1", "#c2"]⟩
        [⟨"A", "#c1"⟩, ⟨"B", "#c2"⟩] (some (.jstr "C")) = "#94a3b8" ∧
    (∀ (numToStr : ℚ → String) (m : CatMap) (cats : List CatEntry)
       (value : Option (JVal ℚ)),
      jsKey numToStr value ∉ cats.map CatEntry.value →
      colorForCategorical numToStr m cats value = "#94a3b8") := by
  refine ⟨rfl, rfl, ?_⟩
  intro numToStr m cats value h
  refine colorForCategorical_unregistered numToStr m cats value ?_
  intro e he hev
  exact h (List.mem_map.mpr ⟨e, he, hev⟩)

/-- C6.  With log-scale on, the grid legend for indicator values `[0, 9]`
places colors over the transformed range `[ln 1, ln 10]` while the stored
original-space bounds — the displayed endpoint labels — remain `0` and `9`;
and toggling log-scale on and then off recomputes exactly the legend of the
log-off state, so the original-space labels are restored exactly. -/
theorem C6_log_scale_labels :
    (computeLegendDataFromGrid (fun _ => (none : Option ℝ)) (fun _ => "")
        Real.log [[("v", JVal.jnum (0 : ℝ))], [("v", JVal.jnum 9)]]
        (some (⟨"v", .numeric, none, none⟩ : Variable ℝ)) true
      = some (.numeric (Real.log 1) (Real.log 10) (some 0) (some 9) true)) ∧
    (displayBounds (Legend.numeric (Real.log 1) (Real.log 10) (some (0 : ℝ))
        (some 9) true) = some (0, 9)) ∧
    (∀ (st : ViewState ℝ) (rows : List (List (String × JVal ℝ)))
       (vbl : Option (Variable ℝ)),
      st.useLogScale = false →
      currentGridLegend (fun _ => (none : Option ℝ)) (fun _ => "") Real.log rows vbl
          (onToggleLogScale (onToggleLogScale st true) false)
        = currentGridLegend (fun _ => (none : Option ℝ)) (fun _ => "") Real.log
            rows vbl st) := by
  have h10 : 0 < Real.log 10 := Real.log_pos (by norm_num)
  refine ⟨?_, rfl, ?_⟩
  · simp only [computeLegendDataFromGrid, List.foldl_cons, List.foldl_nil,
      gridNumericStep, toNumber, List.lookup, applyLogScale, updMinMax]
    norm_num
    rw [if_neg (not_lt.mpr h10.le), if_pos h10, if_neg (ne_of_lt h10)]
    exact ⟨h10.le, rfl⟩
  · intro st rows vbl h
    simp [currentGridLegend, onToggleLogScale, h]

/-- C10.  With log-scale on, a negative indicator value is excluded from the
transformed color min/max (its logarithm is never taken) but still updates
the original-space bounds: for values `[-2, 5]` the color range is the
widened `[ln 6, ln 6 + 1]` while the displayed endpoint labels are `-2` and
`5`, so the label minimum is negative and below every transformed color
position. -/
theorem C10_log_scale_negative_exclusion :
    (computeLegendDataFromGrid (fun _ => (none : Option ℝ)) (fun _ => "")
        Real.log [[("v", JVal.jnum (-2 : ℝ))], [("v", JVal.jnum 5)]]
        (some (⟨"v", .numeric, none, none⟩ : Variable ℝ)) true
      = some (.numeric (Real.log 6) (Real.log 6 + 1) (some (-2)) (some 5) true)) ∧
    (displayBounds (Legend.numeric (Real.log 6) (Real.log 6 + 1) (some (-2 : ℝ))
        (some 5) true) = some (-2, 5)) ∧
    ((-2 : ℝ) < 0) ∧
    (∀ x : ℝ, x < 0 →
      applyLogScale (fun _ => (none : Option ℝ)) Real.log (some (.jnum x)) = none) := by
  refine ⟨?_, rfl, by norm_num, ?_⟩
  · simp only [computeLegendDataFromGrid, List.foldl_cons, List.foldl_nil,
      gridNumericStep, toNumber, List.lookup, applyLogScale, updMinMax]
    norm_num
  · intro x hx
    simp only [applyLogScale, toNumber]
    rw [if_pos hx]

/-- C7, counterexample.  An entered marker size of `0` is falsy in
JavaScript, so `parseInt(value, 10) || 3` replaces it with the default `3`:
the stored value is `3`, not the claimed clamp result `1`. -/
theorem C7_counterexample :
    markerSizeFromInput (some 0) = 3 ∧ (3 : ℤ) ≠ 1 :=
  ⟨rfl, by decide⟩

/-- C7, amended.  Out-of-range input is clamped silently and never
rejected: marker size `25` stores `18`, weight `-5` stores `-1` and `5`
stores `1`, and every possible input stores a marker size in `[1, 18]` and
a weight in `[-1, 1]`; but marker size `0` stores the default `3` (the
falsy-input fallback), not `1`. -/
theorem C7_input_clamping :
    markerSizeFromInput (some 0) = 3 ∧
    markerSizeFromInput (some 25) = 18 ∧
    weightFromInput (some (-5 : ℚ)) = -1 ∧
    weightFromInput (some (5 : ℚ)) = 1 ∧
    (∀ p : Option ℤ, 1 ≤ markerSizeFromInput p ∧ markerSizeFromInput p ≤ 18) ∧
    (∀ p : Option ℚ, -1 ≤ weightFromInput p ∧ weightFromInput p ≤ 1) ∧
    (∀ (st : ViewState ℚ) (p : Option ℤ),
      (onMarkerSizeInput st p).markerSize = markerSizeFromInput p) ∧
    (∀ (st : ViewState ℚ) (sid : String) (kind : WKind) (p : Option ℚ),
      (∀ w ∈ st.weights, -1 ≤ w.2.1 ∧ w.2.1 ≤ 1 ∧ -1 ≤ w.2.2 ∧ w.2.2 ≤ 1) →
      ∀ w ∈ (onWeightInput st sid kind p).weights,
        -1 ≤ w.2.1 ∧ w.2.1 ≤ 1 ∧ -1 ≤ w.2.2 ∧ w.2.2 ≤ 1) := by
  have hm : ∀ p : Option ℤ, 1 ≤ markerSizeFromInput p ∧ markerSizeFromInput p ≤ 18 := by
    intro p
    unfold markerSizeFromInput
    exact ⟨le_max_left 1 _, max_le (by norm_num) (min_le_left 18 _)⟩
  have hw : ∀ p : Option ℚ, -1 ≤ weightFromInput p ∧ weightFromInput p ≤ 1 := by
    intro p
    unfold weightFromInput
    exact ⟨le_max_left (-1) _, max_le (by norm_num) (min_le_left 1 _)⟩
  refine ⟨rfl, by decide, by norm_num [weightFromInput], by norm_num [weightFromInput],
    hm, hw, fun st p => rfl, ?_⟩
  intro st sid kind p hall w hwmem
  simp only [onWeightInput, List.mem_map] at hwmem
  obtain ⟨w0, hw0, rfl⟩ := hwmem
  by_cases hid : w0.1 = sid
  · rw [if_pos hid]
    cases kind
    · exact ⟨(hw p).1, (hw p).2, (hall w0 hw0).2.2.1, (hall w0 hw0).2.2.2⟩
    · exact ⟨(hall w0 hw0).1, (hall w0 hw0).2.1, (hw p).1, (hw p).2⟩
  · rw [if_neg hid]
    exact hall w0 hw0

/-- C8.  The dataset-switch handler always resets the selected feature index
to `0` and invokes the marker refresh in refit mode, while the color-field
handler leaves the selected index unchanged and invokes the refresh without
refit; a refresh without the refit flag never reaches the viewport fit. -/
theorem C8_dataset_switch_vs_color_field_switch :
    ∀ (catalog : List (String × DatasetConfig ℚ))
      (featuresTable : String → List (Feature ℚ))
      (st : ViewState ℚ) (newId newVar : String),
      (onSiteDatasetChange catalog featuresTable st newId).1.selectedIndex = 0 ∧
      (onSiteDatasetChange catalog featuresTable st newId).2 = true ∧
      (onSiteVariableChange catalog st newVar).1.selectedIndex = st.selectedIndex ∧
      (onSiteVariableChange catalog st newVar).2 = false ∧
      (∀ st2 : ViewState ℚ, refreshMarkersFits st2 false = false) := by
  have hsel : ∀ (catalog : List (String × DatasetConfig ℚ)) (st : ViewState ℚ),
      (updateSiteVariablesState catalog st).selectedIndex = st.selectedIndex := by
    intro catalog st
    unfold updateSiteVariablesState
    rcases catalog.lookup st.siteDataset with _ | ds
    · rfl
    · rfl
  intro catalog featuresTable st newId newVar
  refine ⟨?_, rfl, ?_, rfl, fun st2 => rfl⟩
  · show (updateSiteVariablesState catalog
      { st with siteDataset := newId, features := featuresTable newId,
                selectedIndex := 0 }).selectedIndex = 0
    rw [hsel]
  · show (updateSiteVariablesState catalog
      { st with siteVariable := newVar }).selectedIndex = st.selectedIndex
    rw [hsel]

lemma foldl_add_eq_sum {β : Type} (f : β → ℚ) (l : List β) :
    ∀ init : ℚ, l.foldl (fun s b => s + f b) init = init + (l.map f).sum := by
  induction l with
  | nil => intro init; simp
  | cons x xs ih =>
    intro init
    rw [List.foldl_cons, ih, List.map_cons, List.sum_cons]
    ring

/-- C9, counterexample.  With every weight set to `1`, the need score is
`2.8` while the opportunity score is `2.24`: no single coefficient constant
`k` can make both sums equal `Σ 1 · k·(i+1)`, because the two reductions use
the different constants `0.1` and `0.08`. -/
theorem C9_counterexample :
    ¬ ∃ k : ℚ,
      (recomputeScores [("population_score", (1 : ℚ), 1), ("displacement_score", 1, 1),
          ("climate_score", 1, 1), ("conflict_score", 1, 1),
          ("food_nutrition_security_score", 1, 1), ("access_services_score", 1, 1),
          ("economic_activity_score", 1, 1)]).1
        = ((List.range 7).map (fun i => 1 * (k * ((i : ℚ) + 1)))).sum ∧
      (recomputeScores [("population_score", (1 : ℚ), 1), ("displacement_score", 1, 1),
          ("climate_score", 1, 1), ("conflict_score", 1, 1),
          ("food_nutrition_security_score", 1, 1), ("access_services_score", 1, 1),
          ("economic_activity_score", 1, 1)]).2.1
        = ((List.range 7).map (fun i => 1 * (k * ((i : ℚ) + 1)))).sum := by
  rintro ⟨k, h1, h2⟩
  have e1 : (recomputeScores [("population_score", (1 : ℚ), 1), ("displacement_score", 1, 1),
      ("climate_score", 1, 1), ("conflict_score", 1, 1),
      ("food_nutrition_security_score", 1, 1), ("access_services_score", 1, 1),
      ("economic_activity_score", 1, 1)]).1 = 14 / 5 := by
    norm_num [recomputeScores, List.enum, List.enumFrom]
  have e2 : (recomputeScores [("population_score", (1 : ℚ), 1), ("displacement_score", 1, 1),
      ("climate_score", 1, 1), ("conflict_score", 1, 1),
      ("food_nutrition_security_score", 1, 1), ("access_services_score", 1, 1),
      ("economic_activity_score", 1, 1)]).2.1 = 56 / 25 := by
    norm_num [recomputeScores, List.enum, List.enumFrom]
  rw [e1] at h1
  rw [e2] at h2
  have : (14 : ℚ) / 5 = 56 / 25 := h1.trans h2.symm
  norm_num at this

/-- C9, amended.  The recomputation returns
`need = Σ need_weight_i · (0.1 · (i+1))` and
`opportunity = Σ opp_weight_i · (0.08 · (i+1))` — two different fixed
constants scaled by the 1-based position — with
`combined = need + opportunity`; it is a function of the weight table alone
and never consults per-cell grid indicator values.  At the default weight
table the scores are `(0.3, 1.04, 1.34)`. -/
theorem C9_weighted_score_formula :
    (∀ w : List (String × ℚ × ℚ),
      (recomputeScores w).1
        = (w.enum.map (fun p => p.2.2.1 * (1 / 10 * ((p.1 : ℚ) + 1)))).sum ∧
      (recomputeScores w).2.1
        = (w.enum.map (fun p => p.2.2.2 * (2 / 25 * ((p.1 : ℚ) + 1)))).sum ∧
      (recomputeScores w).2.2 = (recomputeScores w).1 + (recomputeScores w).2.1) ∧
    (recomputeScores [("population_score", (1 : ℚ), 0), ("displacement_score", 1, 0),
        ("climate_score", 0, 0), ("conflict_score", 0, 0),
        ("food_nutrition_security_score", 0, 0), ("access_services_score", 0, 1),
        ("economic_activity_score", 0, 1)]) = (3 / 10, 26 / 25, 67 / 50) := by
  constructor
  · intro w
    refine ⟨?_, ?_, rfl⟩
    · show w.enum.foldl (fun sum p => sum + p.2.2.1 * (1 / 10 * ((p.1 : ℚ) + 1))) 0
        = (w.enum.map (fun p => p.2.2.1 * (1 / 10 * ((p.1 : ℚ) + 1)))).sum
      have h := foldl_add_eq_sum
        (fun p : ℕ × String × ℚ × ℚ => p.2.2.1 * (1 / 10 * ((p.1 : ℚ) + 1))) w.enum 0
      rw [zero_add] at h
      exact h
    · show w.enum.foldl (fun sum p => sum + p.2.2.2 * (2 / 25 * ((p.1 : ℚ) + 1))) 0
        = (w.enum.map (fun p => p.2.2.2 * (2 / 25 * ((p.1 : ℚ) + 1)))).sum
      have h := foldl_add_eq_sum
        (fun p : ℕ × String × ℚ × ℚ => p.2.2.2 * (2 / 25 * ((p.1 : ℚ) + 1))) w.enum 0
      rw [zero_add] at h
      exact h
  · norm_num [recomputeScores, List.enum, List.enumFrom, Prod.ext_iff]

end SiteSelector
